import Mathlib

/-!
Shallow embedding of the EnterpriseOpsAgent incident-analysis backend
(`backend/app/agents/*.py`) and proofs about its specification.

Conventions of the embedding:
* Python numbers are modelled as exact rationals (`ℚ`); the softmax stage,
  which uses `math.exp`, lives in `ℝ`.
* Python `round(x, n)` is round-half-even on binary doubles; it is modelled
  here as round-half-up on exact numbers.  No verified statement depends on a
  rounding tie or on binary-float representation error.
* Fallible Python code (unguarded `float(...)` conversions, `json.loads`)
  returns `Option`: `none` is a raised exception.
* Python dicts with a fixed key set are Lean structures; a key that may be
  absent and is read with `d.get(k)` becomes an `Option` field.
-/

/-- Python `round(q, ndigits)`, modelled as round-half-up on exact rationals. -/
def qRound (ndigits : ℕ) (q : ℚ) : ℚ :=
  (Int.floor (q * 10 ^ ndigits + 1/2) : ℚ) / 10 ^ ndigits

/-- Python `round(x, ndigits)` on a real intermediate value (softmax outputs). -/
noncomputable def rRound (ndigits : ℕ) (x : ℝ) : ℝ :=
  ((Int.floor (x * 10 ^ ndigits + 1/2) : ℤ) : ℝ) / 10 ^ ndigits

/-- `as` is an initial segment of `bs`. -/
def listStartsWith : List Char → List Char → Bool
  | [], _ => true
  | _ :: _, [] => false
  | a :: as, b :: bs => a == b && listStartsWith as bs

/-- `needle` occurs contiguously inside `hay`. -/
def listContainsSub (needle : List Char) : List Char → Bool
  | [] => needle.isEmpty
  | c :: cs => listStartsWith needle (c :: cs) || listContainsSub needle cs

/-- Python `needle in hay` on strings: substring containment. -/
def containsSub (needle hay : String) : Bool :=
  listContainsSub needle.data hay.data

/-- Python `s.lower()`, modelled character-wise (the repository's keyword
matching is ASCII-only, where Python's `str.lower` and `Char.toLower`
agree). -/
def strLower (s : String) : String := String.mk (s.data.map Char.toLower)

/-- A timeline event dict as produced by ingestion and consumed by the agents.
Each consumer reads the keys with `ev.get(k, "")` (or `ev.get(k) or ""`), so a
missing key is represented by the empty string. -/
structure Event where
  message : String
  source : String
  event_type : String
  level : String
  deriving DecidableEq, Repr

/-- A Python value stored under the `"score"` key of a hypothesis dict:
either a number (ints, floats and numeric strings, pre-converted to the exact
rational `float` yields) or a value that `float(...)` rejects with
`TypeError`/`ValueError` (e.g. a non-numeric string).  A hypothesis dict with
no `"score"` key is represented by `num 0`, because every read in
`calibration_agent.py` is `h.get("score", 0.0)`. -/
inductive ScoreVal where
  | num (q : ℚ)
  | nonNumeric (s : String)
  deriving DecidableEq, Repr

/-- Python `float(h.get("score", 0.0))`: `none` is a raised exception. -/
def pyFloat : ScoreVal → Option ℚ
  | .num q => some q
  | .nonNumeric _ => none

/-- A hypothesis dict as consumed by `calibration_agent.py`. -/
structure Hyp where
  id : String
  title : String
  score : ScoreVal
  explanation : String
  deriving DecidableEq, Repr

/-- The clamp `max(0.0, min(1.0, s))` in `score_normalisation`. -/
def clamp01 (q : ℚ) : ℚ := max 0 (min 1 q)

/-- One element of `raw_scores` in `score_normalisation`: `float(...)` with the
`except` fallback to `0.0`, then clamped into `[0, 1]`. -/
def rawScore (h : Hyp) : ℚ := clamp01 ((pyFloat h.score).getD 0)

/-- `score_normalisation` (calibration_agent.py lines 7-37): clamp raw scores
into `[0,1]`, then min-max normalise; an all-equal positive list maps to all
ones, an all-zero list stays all zeros. -/
def score_normalisation : List Hyp → List ℚ
  | [] => []
  | h :: hs =>
    let raw_scores := (h :: hs).map rawScore
    let max_s := (hs.map rawScore).foldl max (rawScore h)
    let min_s := (hs.map rawScore).foldl min (rawScore h)
    if max_s = min_s then
      if 0 < max_s then raw_scores.map (fun _ => 1) else raw_scores
    else
      raw_scores.map (fun s => (s - min_s) / (max_s - min_s))

/-- `softmax_confidence_adjustment` (calibration_agent.py lines 40-57):
numerically-stable softmax over the normalised scores; if the sum of
exponentials is 0, return all zeros. -/
noncomputable def softmax_confidence_adjustment (normalised_scores : List ℚ) : List ℝ :=
  match normalised_scores with
  | [] => []
  | s0 :: rest =>
    let max_input := rest.foldl max s0
    let exps := (s0 :: rest).map (fun s => Real.exp ((s : ℝ) - (max_input : ℝ)))
    let total := exps.sum
    if total = 0 then exps.map (fun _ => 0) else exps.map (fun e => e / total)

/-- The `evidence_strength_report` dict built by `confidence_penalty`. -/
structure EvidenceReport where
  timeline_length : ℕ
  raw_primary_confidence : ℚ
  softmax_primary_confidence : ℝ
  timeline_length_penalty_factor : ℚ
  multiple_high_hypotheses : ℕ
  multiple_high_penalty_factor : ℚ
  final_primary_confidence : ℝ

/-- `confidence_penalty` (calibration_agent.py lines 60-104).  The
`float(h.get("score", 0.0))` inside the `num_high` sum is unguarded, so the
function can raise: `none`. -/
noncomputable def confidence_penalty (hypotheses : List Hyp) (events : List Event)
    (base_primary_confidence : ℚ) (softmax_primary_confidence : ℝ) :
    Option (ℝ × EvidenceReport) := do
  let n_events := events.length
  let length_factor : ℚ :=
    if n_events = 0 then 1/2
    else if n_events < 5 then 7/10
    else if n_events < 10 then 17/20
    else 1
  let scores ← hypotheses.mapM (fun h => pyFloat h.score)
  let num_high := scores.countP (fun s => 8/10 ≤ s)
  let multi_factor : ℚ := if 1 < num_high then 9/10 else 1
  let final_conf : ℝ := softmax_primary_confidence * (length_factor : ℝ) * (multi_factor : ℝ)
  pure (final_conf,
    { timeline_length := n_events
      raw_primary_confidence := qRound 2 base_primary_confidence
      softmax_primary_confidence := rRound 2 softmax_primary_confidence
      timeline_length_penalty_factor := qRound 2 length_factor
      multiple_high_hypotheses := num_high
      multiple_high_penalty_factor := qRound 2 multi_factor
      final_primary_confidence := rRound 2 final_conf })

/-- Python `max(range(len(l)), key=lambda i: l[i])`: index of the first
maximal element (`max` keeps the earlier candidate on ties). -/
def argmaxIdx (l : List ℚ) : ℕ :=
  (List.range l.length).foldl
    (fun best i => if l.getD best 0 < l.getD i 0 then i else best) 0

/-- A calibrated hypothesis: a copy of the original dict with
`normalised_score` and `calibrated_score` merged on. -/
structure CalHyp where
  base : Hyp
  normalised_score : ℚ
  calibrated_score : ℝ

/-- `calibrate_hypotheses` (calibration_agent.py lines 107-163).  The
primary-hypothesis selection applies an unguarded `float(...)` to each raw
score, so the function can raise: `none`. -/
noncomputable def calibrate_hypotheses (hypotheses : List Hyp) (events : List Event) :
    Option (List CalHyp × ℝ × EvidenceReport) :=
  if hypotheses = [] then
    some ([], 0,
      { timeline_length := events.length
        raw_primary_confidence := 0
        softmax_primary_confidence := 0
        timeline_length_penalty_factor := 0
        multiple_high_hypotheses := 0
        multiple_high_penalty_factor := 0
        final_primary_confidence := 0 })
  else do
    let normalised := score_normalisation hypotheses
    let softmax_probs := softmax_confidence_adjustment normalised
    let keyScores ← hypotheses.mapM (fun h => pyFloat h.score)
    let primary_index := argmaxIdx keyScores
    let base_primary_conf := keyScores.getD primary_index 0
    let softmax_primary_conf := softmax_probs.getD primary_index 0
    let (final_conf, evidence_strength_report) ←
      confidence_penalty hypotheses events base_primary_conf softmax_primary_conf
    let calibrated := (hypotheses.zip (normalised.zip softmax_probs)).map
      (fun hnp => { base := hnp.1
                    normalised_score := qRound 3 hnp.2.1
                    calibrated_score := rRound 3 hnp.2.2 })
    pure (calibrated, final_conf, evidence_strength_report)

/-- `assign_phase` (ingestion_agent.py lines 10-19): phase by row position. -/
def assign_phase (index : ℕ) (total : ℕ) : String :=
  if total = 0 then "unknown"
  else
    let ratio : ℚ := (index : ℚ) / (total : ℚ)
    if ratio < (0.2 : ℚ) then "detection"
    else if ratio < (0.8 : ℚ) then "mitigation"
    else "resolution"

/-! ## Forensic agent (forensic_agent.py) -/

/-- `_score_keyword` (forensic_agent.py lines 6-11): how many of the given
keywords appear in the lower-cased message. -/
def _score_keyword (message : String) (keywords : List String) : ℕ :=
  let m := strLower message
  keywords.countP (fun kw => containsSub kw m)

/-- The contribution of one event to `network_score` in
`generate_root_cause_hypotheses`, including the extra weight for
alert/error/critical events mentioning "timeout". -/
def evNetworkDelta (ev : Event) : ℕ :=
  let msg := strLower ev.message
  let evt_type := strLower ev.event_type
  _score_keyword msg ["timeout", "connection reset", "dns", "network", "latency"]
    + (if (evt_type = "alert" ∨ evt_type = "error" ∨ containsSub "critical" msg)
          ∧ containsSub "timeout" msg then 1 else 0)

/-- The contribution of one event to `dependency_score`. -/
def evDependencyDelta (ev : Event) : ℕ :=
  let msg := strLower ev.message
  _score_keyword msg ["payments-service", "database", "redis", "kafka", "upstream"]

/-- The contribution of one event to `capacity_score`, including the extra
weights for alert/error/critical events mentioning cpu/memory and for events
whose source is infra/platform. -/
def evCapacityDelta (ev : Event) : ℕ :=
  let msg := strLower ev.message
  let src := strLower ev.source
  let evt_type := strLower ev.event_type
  _score_keyword msg ["cpu", "memory", "disk", "saturation", "pod", "throttle"]
    + (if (evt_type = "alert" ∨ evt_type = "error" ∨ containsSub "critical" msg)
          ∧ (containsSub "cpu" msg ∨ containsSub "memory" msg) then 1 else 0)
    + (if src = "infra" ∨ src = "platform" then 1 else 0)

/-- The contribution of one event to `app_bug_score`. -/
def evAppBugDelta (ev : Event) : ℕ :=
  let msg := strLower ev.message
  _score_keyword msg ["nullpointer", "stack trace", "exception", "bug", "deploy"]

/-- `network_score` accumulated over the whole timeline. -/
def networkScore (events : List Event) : ℕ := (events.map evNetworkDelta).sum

/-- `dependency_score` accumulated over the whole timeline. -/
def dependencyScore (events : List Event) : ℕ := (events.map evDependencyDelta).sum

/-- `capacity_score` accumulated over the whole timeline. -/
def capacityScore (events : List Event) : ℕ := (events.map evCapacityDelta).sum

/-- `app_bug_score` accumulated over the whole timeline. -/
def appBugScore (events : List Event) : ℕ := (events.map evAppBugDelta).sum

/-- An entry of `raw_hypotheses` in the forensic agent (integer score). -/
structure FHyp where
  id : String
  title : String
  score : ℕ
  explanation : String
  deriving DecidableEq, Repr

/-- An output hypothesis of the forensic agent (confidence in `[0,1]`). -/
structure FOut where
  id : String
  title : String
  confidence : ℚ
  explanation : String
  deriving DecidableEq, Repr

/-- The `H_generic` fallback hypothesis of the forensic agent. -/
def fallbackHypothesis : FOut :=
  { id := "H_generic"
    title := "Insufficient evidence for a specific root cause"
    confidence := 1/5
    explanation :=
      "The current logs do not strongly point to a single class of issue. More detailed logs or runbook information would help refine hypotheses." }

/-- `generate_root_cause_hypotheses` (forensic_agent.py lines 14-147): score
four fixed hypotheses from keyword evidence, drop zero-score ones, fall back
to `H_generic` when all are dropped, otherwise scale by the maximum score and
sort descending by raw score (Python `sorted` is stable). -/
def generate_root_cause_hypotheses (events : List Event) : List FOut :=
  if events = [] then []
  else
    let raw_hypotheses : List FHyp :=
      [ { id := "H1"
          title := "Network or connectivity issue between services"
          score := networkScore events
          explanation :=
            "Multiple messages mention timeouts, network terms, or high latency. This suggests a possible network or connectivity problem between services." }
      , { id := "H2"
          title := "Downstream dependency or external service failure"
          score := dependencyScore events
          explanation :=
            "Logs reference specific downstream components such as databases or payment services. This points to a dependency outage or regression." }
      , { id := "H3"
          title := "Infrastructure capacity or resource saturation"
          score := capacityScore events
          explanation :=
            "Alerts or logs indicate high CPU, memory, or pod usage. This suggests capacity issues, autoscaling problems, or noisy neighbours." }
      , { id := "H4"
          title := "Application code bug or faulty deployment"
          score := appBugScore events
          explanation :=
            "Error messages or comments reference exceptions, stack traces, or recent deployments. This is consistent with an application bug or bad release." } ]
    match raw_hypotheses.filter (fun h => 0 < h.score) with
    | [] => [fallbackHypothesis]
    | h0 :: rest =>
      let max0 := rest.foldl (fun a h => max a h.score) h0.score
      let max_score := if max0 = 0 then 1 else max0
      ((h0 :: rest).mergeSort (fun a b => b.score ≤ a.score)).map
        (fun h => { id := h.id
                    title := h.title
                    confidence := qRound 2 ((h.score : ℚ) / (max_score : ℚ))
                    explanation := h.explanation })

/-! ## Causal graph agent (causal_graph_agent.py) -/

/-- A refined-hypothesis dict as consumed by `_build_deterministic_chain`:
every key is read with `h.get(...)`, so each may be absent. -/
structure GHyp where
  id : Option String
  title : Option String
  score : Option ℚ
  deriving DecidableEq, Repr

/-- The incident-summary dict fields read by the causal-graph and
recommended-actions builders. -/
structure IncidentSummary where
  primary_cause_id : Option String
  primary_cause_category : Option String
  deriving DecidableEq, Repr

/-- The dict comprehension `by_id = {h.get("id"): h for h in refined}`
followed by `by_id.get(key)`: on duplicate ids the later entry wins. -/
def byId (refined : List GHyp) (key : Option String) : Option GHyp :=
  refined.reverse.find? (fun h => h.id == key)

/-- One entry of the `cascade` list. -/
structure CascadeNode where
  node : Option String
  hypothesis_id : Option String
  caused_by : Option String
  score : ℚ
  deriving DecidableEq, Repr

/-- The causal-graph structure returned by `_build_deterministic_chain` (the
`llm_summary` key is attached later by `build_causal_graph` and is not part of
the deterministic chain). -/
structure CausalGraph where
  root_cause : Option String
  root_cause_id : Option String
  cascade : List CascadeNode
  deriving DecidableEq, Repr

/-- Python truthiness of the value under `"primary_cause_id"`: `None` and the
empty string are falsy. -/
def pyTruthyStrOpt : Option String → Bool
  | none => false
  | some s => s ≠ ""

/-- The `chain_order` built from the fixed `H2`, `H1`, `H4`, `H5` checks in
`_build_deterministic_chain` (each appended when present among the refined ids
and not already in the list so far). -/
def presentFour (refined_hypotheses : List GHyp) : List (Option String) :=
  let ids := refined_hypotheses.map (fun h => h.id)
  let co1 : List (Option String) := if some "H2" ∈ ids then [some "H2"] else []
  let co2 := if some "H1" ∈ ids ∧ some "H1" ∉ co1 then co1 ++ [some "H1"] else co1
  let co3 := if some "H4" ∈ ids ∧ some "H4" ∉ co2 then co2 ++ [some "H4"] else co2
  if some "H5" ∈ ids ∧ some "H5" ∉ co3 then co3 ++ [some "H5"] else co3

/-- The final `chain_order` of `_build_deterministic_chain`: the primary id is
prepended when it is truthy (`if primary_id and primary_id not in
chain_order`) and not already present. -/
def codeChainOrder (refined_hypotheses : List GHyp) (primary_id : Option String) :
    List (Option String) :=
  if pyTruthyStrOpt primary_id ∧ primary_id ∉ presentFour refined_hypotheses
  then primary_id :: presentFour refined_hypotheses
  else presentFour refined_hypotheses

/-- One cascade entry, as built in the `for idx, hid in enumerate(chain_order)`
loop (the `by_id[hid]` indexing cannot fail there, since every id placed in
`chain_order` is a key of `by_id`; the `getD` default is never used). -/
def cascadeNodeAt (refined_hypotheses : List GHyp)
    (chain_order : List (Option String)) (idx : ℕ) : CascadeNode :=
  let hid := chain_order.getD idx none
  let h := (byId refined_hypotheses hid).getD { id := none, title := none, score := none }
  { node := h.title
    hypothesis_id := hid
    caused_by := if 0 < idx then chain_order.getD (idx - 1) none else none
    score := h.score.getD 0 }

/-- `_build_deterministic_chain` (causal_graph_agent.py lines 21-83). -/
def _build_deterministic_chain (refined_hypotheses : List GHyp)
    (incident_summary : IncidentSummary) : CausalGraph :=
  let primary_id := incident_summary.primary_cause_id
  match byId refined_hypotheses primary_id with
  | none => { root_cause := none, root_cause_id := none, cascade := [] }
  | some primary =>
    let chain_order := codeChainOrder refined_hypotheses primary_id
    { root_cause := primary.title
      root_cause_id := primary_id
      cascade := (List.range chain_order.length).map
        (cascadeNodeAt refined_hypotheses chain_order) }

/-- The cascade-order rule as the specification words it: `H2`, `H1`, `H4`,
`H5` in this fixed order, each kept when present among the refined ids, with
the primary id inserted at the front when it is not among those four. -/
def specCascadeOrder (refined_hypotheses : List GHyp) (pid : String) : List (Option String) :=
  let present := ([some "H2", some "H1", some "H4", some "H5"] : List (Option String)).filter
    (fun i => i ∈ refined_hypotheses.map (fun h => h.id))
  if some pid ∈ present then present else some pid :: present

/-! ## Explain-hypothesis agent (explain_hypothesis_agent.py) -/

/-- A refined-hypothesis dict as consumed by `explain_hypothesis`: the code
indexes `h["id"]`, `h["title"]`, `h["explanation"]` directly, so the keys are
required. -/
structure EHyp where
  id : String
  title : String
  explanation : String
  deriving DecidableEq, Repr

/-- The return payload of `explain_hypothesis`: either the structured error
dict or the explanation dict. -/
inductive ExplainResult where
  | fail (message : String)
  | ok (hypothesis_id : String) (title : String) (full_explanation : String)
      (supporting_evidence : List Event) (conflicting_evidence : List Event)
  deriving DecidableEq, Repr

/-- Keyword extraction from the hypothesis title: lower-case, turn `/` and
`-` into spaces, split on whitespace, keep words longer than 3 characters.
(Python `split()` drops empty fragments; they are removed here by the length
filter.) -/
def keywordsOfTitle (title : String) : List String :=
  let t := ((strLower title).replace "/" " ").replace "-" " "
  (t.split Char.isWhitespace).filter (fun k => 3 < k.length)

/-- Whether one event counts as supporting evidence: its lower-cased message
contains at least one of the keywords. -/
def eventMatchesKeywords (keywords : List String) (e : Event) : Bool :=
  keywords.any (fun k => containsSub k (strLower e.message))

/-- `explain_hypothesis` (explain_hypothesis_agent.py lines 6-53): find the
first hypothesis with the requested id (Python `next(...)`), then partition
the timeline into supporting and conflicting evidence. -/
def explain_hypothesis (events : List Event) (refined_hypotheses : List EHyp)
    (hypothesis_id : String) : ExplainResult :=
  match refined_hypotheses.find? (fun h => h.id == hypothesis_id) with
  | none => .fail ("Hypothesis " ++ hypothesis_id ++ " not found.")
  | some selected =>
    let keywords := keywordsOfTitle selected.title
    let part := events.partition (eventMatchesKeywords keywords)
    .ok selected.id selected.title selected.explanation part.1 part.2

/-! ## Recommended actions (root_cause_agent.py lines 174-263) -/

/-- One entry of the fixed recommended-action catalogue. -/
structure RecommendedAction where
  id : String
  title : String
  description : String
  owner : String
  priority : String
  deriving DecidableEq, Repr

/-- Action A1 (dependency). -/
def actionA1 : RecommendedAction :=
  { id := "A1", title := "Stabilise downstream dependency"
    description :=
      "Coordinate with the owners of the failing downstream service to stabilise it (restart if needed, rollback risky changes, validate health checks and SLIs)."
    owner := "dependency_owner", priority := "p0" }

/-- Action A2 (infra). -/
def actionA2 : RecommendedAction :=
  { id := "A2", title := "Right-size and harden infrastructure capacity"
    description :=
      "Review autoscaling configuration, resource requests/limits, and pod distribution to prevent CPU or memory saturation during traffic spikes."
    owner := "infra_team", priority := "p0" }

/-- Action A3 (deployment). -/
def actionA3 : RecommendedAction :=
  { id := "A3", title := "Audit recent changes and improve rollout safety"
    description :=
      "Review recent deployments and configuration changes; consider canary rollouts, automatic rollback rules, and stronger pre-deployment checks."
    owner := "platform_team", priority := "p0" }

/-- Action A4 (performance). -/
def actionA4 : RecommendedAction :=
  { id := "A4", title := "Optimise critical path performance"
    description :=
      "Profile the critical request path, tune timeouts and retries, and ensure that performance regressions are caught via SLOs and alerting."
    owner := "service_owner", priority := "p1" }

/-- Action A5 (always included). -/
def actionA5 : RecommendedAction :=
  { id := "A5", title := "Post-incident review"
    description :=
      "Schedule a blameless post-incident review covering detection quality, mitigation steps, communication, and long-term prevention."
    owner := "sre_lead", priority := "p2" }

/-- Action A6 (always included). -/
def actionA6 : RecommendedAction :=
  { id := "A6", title := "Review similar incidents and update playbooks"
    description :=
      "Review historical incidents similar to this one and refine or update their runbooks and auto-mitigation strategies."
    owner := "sre_team", priority := "p2" }

/-- `_build_recommended_actions` (root_cause_agent.py lines 174-263): one
category-specific action chosen by `primary_cause_category`, then the two
always-included actions A5 and A6. -/
def _build_recommended_actions (incident_summary : IncidentSummary) :
    List RecommendedAction :=
  let category := incident_summary.primary_cause_category
  (if category = some "dependency" then [actionA1]
   else if category = some "infra" then [actionA2]
   else if category = some "deployment" then [actionA3]
   else if category = some "performance" then [actionA4]
   else []) ++ [actionA5, actionA6]

/-! ## Gemini refinement agent (gemini_agent.py)

`json.loads` is Python standard library, not repository code; it is modelled
here by a recursive-descent JSON parser over the standard JSON value grammar
(numbers are modelled as optional sign, digits, optional fraction, optional
exponent; strings support the simple escapes and `\uXXXX`).  `json.loads`
accepts a string exactly when it is one JSON value surrounded only by
whitespace. -/

/-- A parsed JSON value. -/
inductive JVal where
  | null
  | bool (b : Bool)
  | num (q : ℚ)
  | str (s : String)
  | arr (elems : List JVal)
  | obj (fields : List (String × JVal))

/-- JSON whitespace skipping. -/
def skipWs : List Char → List Char
  | [] => []
  | c :: cs => if c = ' ' ∨ c = '\t' ∨ c = '\n' ∨ c = '\r' then skipWs cs else c :: cs

/-- Value of a hex digit. -/
def hexVal (c : Char) : Option ℕ :=
  if '0' ≤ c ∧ c ≤ '9' then some (c.toNat - '0'.toNat)
  else if 'a' ≤ c ∧ c ≤ 'f' then some (c.toNat - 'a'.toNat + 10)
  else if 'A' ≤ c ∧ c ≤ 'F' then some (c.toNat - 'A'.toNat + 10)
  else none

/-- Simple JSON string escapes. -/
def escMap : Char → Option Char
  | '"' => some '"'
  | '\\' => some '\\'
  | '/' => some '/'
  | 'b' => some (Char.ofNat 8)
  | 'f' => some (Char.ofNat 12)
  | 'n' => some '\n'
  | 'r' => some '\r'
  | 't' => some '\t'
  | _ => none

/-- Parse the body of a JSON string, after the opening quote; returns the
string contents and the remaining input after the closing quote. -/
def parseStringChars : List Char → Option (List Char × List Char)
  | [] => none
  | '"' :: r => some ([], r)
  | '\\' :: 'u' :: h1 :: h2 :: h3 :: h4 :: r => do
    let a ← hexVal h1
    let b ← hexVal h2
    let c ← hexVal h3
    let d ← hexVal h4
    let (cs, r') ← parseStringChars r
    pure (Char.ofNat (((a * 16 + b) * 16 + c) * 16 + d) :: cs, r')
  | '\\' :: e :: r => do
    let c ← escMap e
    let (cs, r') ← parseStringChars r
    pure (c :: cs, r')
  | c :: r => do
    let (cs, r') ← parseStringChars r
    pure (c :: cs, r')

/-- Numeric value of a digit list. -/
def digitsVal (ds : List Char) : ℕ :=
  ds.foldl (fun a c => 10 * a + (c.toNat - '0'.toNat)) 0

/-- Optional exponent part of a JSON number. -/
def parseExpPart (q : ℚ) (cs : List Char) : Option (JVal × List Char) :=
  match cs with
  | 'e' :: r => parseExpTail q r
  | 'E' :: r => parseExpTail q r
  | _ => some (.num q, cs)
where
  parseExpTail (q : ℚ) (cs : List Char) : Option (JVal × List Char) :=
    let (esign, cs1) : ℤ × List Char :=
      match cs with
      | '+' :: r => (1, r)
      | '-' :: r => (-1, r)
      | _ => (1, cs)
    let (es, cs2) := cs1.span (fun c => c.isDigit)
    if es = [] then none
    else some (.num (q * (10 : ℚ) ^ (esign * (digitsVal es : ℤ))), cs2)

/-- Parse a JSON number at the head of the input. -/
def parseNumber (cs : List Char) : Option (JVal × List Char) :=
  let (neg, cs1) : Bool × List Char :=
    match cs with
    | '-' :: r => (true, r)
    | _ => (false, cs)
  let (ds, cs2) := cs1.span (fun c => c.isDigit)
  if ds = [] then none
  else
    let intPart : ℚ := (digitsVal ds : ℚ)
    let signed : ℚ → ℚ := fun q => if neg then -q else q
    match cs2 with
    | '.' :: r =>
      let (fs, cs3) := r.span (fun c => c.isDigit)
      if fs = [] then none
      else parseExpPart (signed (intPart + (digitsVal fs : ℚ) / (10 : ℚ) ^ fs.length)) cs3
    | _ => parseExpPart (signed intPart) cs2

mutual

/-- Parse one JSON value at the head of the input (after optional
whitespace); `fuel` bounds the nesting recursion. -/
def parseVal : ℕ → List Char → Option (JVal × List Char)
  | 0, _ => none
  | fuel + 1, cs =>
    match skipWs cs with
    | 'n' :: 'u' :: 'l' :: 'l' :: r => some (.null, r)
    | 't' :: 'r' :: 'u' :: 'e' :: r => some (.bool true, r)
    | 'f' :: 'a' :: 'l' :: 's' :: 'e' :: r => some (.bool false, r)
    | '"' :: r => (parseStringChars r).map (fun p => (.str (String.mk p.1), p.2))
    | '\x7b' :: r =>
      (match skipWs r with
       | '\x7d' :: r' => some (.obj [], r')
       | _ => (parseMembers fuel r).map (fun p => (.obj p.1, p.2)))
    | '[' :: r =>
      (match skipWs r with
       | ']' :: r' => some (.arr [], r')
       | _ => (parseElems fuel r).map (fun p => (.arr p.1, p.2)))
    | rest => parseNumber rest

/-- Parse the non-empty member list of a JSON object, up to and including the
closing brace. -/
def parseMembers : ℕ → List Char → Option (List (String × JVal) × List Char)
  | 0, _ => none
  | fuel + 1, cs =>
    match skipWs cs with
    | '"' :: r => do
      let (k, r1) ← parseStringChars r
      match skipWs r1 with
      | ':' :: r2 => do
        let (v, r3) ← parseVal fuel r2
        (match skipWs r3 with
         | ',' :: r4 => (parseMembers fuel r4).map
             (fun p => ((String.mk k, v) :: p.1, p.2))
         | '\x7d' :: r4 => some ([(String.mk k, v)], r4)
         | _ => none)
      | _ => none
    | _ => none

/-- Parse the non-empty element list of a JSON array, up to and including the
closing bracket. -/
def parseElems : ℕ → List Char → Option (List JVal × List Char)
  | 0, _ => none
  | fuel + 1, cs => do
    let (v, r) ← parseVal fuel cs
    match skipWs r with
    | ',' :: r2 => (parseElems fuel r2).map (fun p => (v :: p.1, p.2))
    | ']' :: r2 => some ([v], r2)
    | _ => none

end

/-- `json.loads` (modelled): one JSON value, surrounded only by whitespace. -/
def json_loads (s : String) : Option JVal :=
  match parseVal (s.data.length + 2) s.data with
  | some (v, rest) => if skipWs rest = [] then some v else none
  | none => none

/-- The candidate substring selected by `re.search(r"\x7b[\s\S]*\x7d", text)`:
the (greedy, leftmost) match runs from the first `{` to the last `}` of the
whole text, provided the last `}` comes after the first `{`. -/
def extractCandidate (text : String) : Option String :=
  let cs := text.data
  match List.findIdx? (fun c => c = '\x7b') cs,
        List.findIdx? (fun c => c = '\x7d') cs.reverse with
  | some i, some jr =>
    let j := cs.length - 1 - jr
    if i < j then some (String.mk ((cs.drop i).take (j - i + 1))) else none
  | _, _ => none

/-- `_extract_json` (gemini_agent.py lines 20-29): regex-select the candidate
substring, then `json.loads` it; `none` is the raised
`ValueError`/`JSONDecodeError`. -/
def _extract_json (text : String) : Option JVal :=
  (extractCandidate text).bind json_loads

/-- Python `s.strip()`: drop leading and trailing whitespace. -/
def pyStrip (s : String) : String :=
  String.mk (((s.data.dropWhile Char.isWhitespace).reverse.dropWhile
    Char.isWhitespace).reverse)

/-- `dict.get(key)` on a parsed JSON object (duplicate keys: the later entry
wins, as in Python's dict construction); `none` for an absent key. -/
def jget (v : JVal) (key : String) : Option JVal :=
  match v with
  | .obj fields => (fields.reverse.find? (fun f => f.1 == key)).map (fun f => f.2)
  | _ => none

/-- `refine_root_cause_with_gemini` (gemini_agent.py lines 32-84).  The
network call `model.generate_content(prompt)` is I/O: its outcome — an
exception, or a raw response text — is the `callResult` parameter, and
`configured` is the truthiness of `settings.gemini_api_key`.  The events list
only feeds the prompt text, which does not influence the embedded control
flow.  All failure paths return the rule-based input with a diagnostic
commentary (the commentary may be any JSON value when taken from the model
response, so it is a `JVal`). -/
def refine_root_cause_with_gemini (rule_based_hypotheses : List JVal)
    (configured : Bool) (callResult : Except String String) : List JVal × JVal :=
  if rule_based_hypotheses.isEmpty then
    (rule_based_hypotheses, .str "No hypotheses provided.")
  else if ¬ configured then
    (rule_based_hypotheses, .str "Gemini not configured: Gemini API key not configured.")
  else
    match callResult with
    | .error e => (rule_based_hypotheses, .str ("Gemini exception occurred: " ++ e))
    | .ok raw_text =>
      match _extract_json (pyStrip raw_text) with
      | none =>
        (rule_based_hypotheses,
         .str "Gemini exception occurred: no JSON object found in LLM output.")
      | some data =>
        let refined := (jget data "refined").getD (.arr rule_based_hypotheses)
        let commentary := (jget data "commentary").getD (.str "")
        match refined with
        | .arr xs => (xs, commentary)
        | _ => (rule_based_hypotheses, .str "Invalid refined format.")

/-! ## Helper lemmas -/

/-- The left fold of `max` over a list is an element of the start-and-list. -/
theorem foldl_max_mem {γ : Type} [LinearOrder γ] (l : List γ) (r : γ) :
    l.foldl max r ∈ r :: l := by
  induction l generalizing r with
  | nil => simp
  | cons a t ih =>
    have h := ih (max r a)
    rcases List.mem_cons.1 h with h1 | h1
    · rcases max_choice r a with hm | hm <;> rw [List.foldl_cons, h1, hm] <;> simp
    · exact List.mem_cons.2 (Or.inr (List.mem_cons.2 (Or.inr h1)))

/-- Every element of the start-and-list is at most the left fold of `max`. -/
theorem le_foldl_max {γ : Type} [LinearOrder γ] (l : List γ) (r : γ) :
    ∀ x ∈ r :: l, x ≤ l.foldl max r := by
  induction l generalizing r with
  | nil => intro x hx; simp at hx; simp [hx]
  | cons a t ih =>
    intro x hx
    rw [List.foldl_cons]
    rcases List.mem_cons.1 hx with h1 | h1
    · subst h1
      exact le_trans (le_max_left x a) (ih (max x a) _ (List.mem_cons_self _ _))
    · rcases List.mem_cons.1 h1 with h2 | h2
      · subst h2
        exact le_trans (le_max_right r x) (ih (max r x) _ (List.mem_cons_self _ _))
      · exact ih (max r a) x (List.mem_cons.2 (Or.inr h2))

/-- The left fold of `min` over a list is an element of the start-and-list. -/
theorem foldl_min_mem {γ : Type} [LinearOrder γ] (l : List γ) (r : γ) :
    l.foldl min r ∈ r :: l := by
  induction l generalizing r with
  | nil => simp
  | cons a t ih =>
    have h := ih (min r a)
    rcases List.mem_cons.1 h with h1 | h1
    · rcases min_choice r a with hm | hm <;> rw [List.foldl_cons, h1, hm] <;> simp
    · exact List.mem_cons.2 (Or.inr (List.mem_cons.2 (Or.inr h1)))

/-- The left fold of `min` is at most every element of the start-and-list. -/
theorem foldl_min_le {γ : Type} [LinearOrder γ] (l : List γ) (r : γ) :
    ∀ x ∈ r :: l, l.foldl min r ≤ x := by
  induction l generalizing r with
  | nil => intro x hx; simp at hx; simp [hx]
  | cons a t ih =>
    intro x hx
    rw [List.foldl_cons]
    rcases List.mem_cons.1 hx with h1 | h1
    · subst h1
      exact le_trans (ih (min x a) _ (List.mem_cons_self _ _)) (min_le_left x a)
    · rcases List.mem_cons.1 h1 with h2 | h2
      · subst h2
        exact le_trans (ih (min r x) _ (List.mem_cons_self _ _)) (min_le_right r x)
      · exact ih (min r a) x (List.mem_cons.2 (Or.inr h2))

/-- Summing a list of pointwise quotients is dividing the sum. -/
theorem list_sum_map_div (l : List ℝ) (d : ℝ) :
    (l.map (fun e => e / d)).sum = l.sum / d := by
  induction l with
  | nil => simp
  | cons a t ih => simp [ih, add_div]

/-- Reading each position of a list back through `getD` reproduces the list. -/
theorem map_getD_range {γ : Type} (l : List γ) (d : γ) :
    (List.range l.length).map (fun i => l.getD i d) = l := by
  apply List.ext_getElem
  · simp
  · intro i h1 h2
    simp only [List.getElem_map, List.getElem_range]
    exact List.getD_eq_getElem l d (by simpa using h1)

/-! ## Claim theorems -/

/-- C6: phase assignment follows the position ratio `index / total`: `unknown`
when `total = 0`, `detection` when the ratio is below 0.2, `mitigation` when
it is at least 0.2 and below 0.8, `resolution` when it is at least 0.8; in
particular, among 10 sorted events, indices 0-1 get `detection`, 2-7 get
`mitigation` and 8-9 get `resolution`. -/
theorem C6_assign_phase_boundaries :
    (∀ index total : ℕ, total = 0 → assign_phase index total = "unknown") ∧
    (∀ index total : ℕ, total ≠ 0 →
      ((index : ℚ) / (total : ℚ) < 0.2 → assign_phase index total = "detection") ∧
      ((0.2 : ℚ) ≤ (index : ℚ) / (total : ℚ) ∧ (index : ℚ) / (total : ℚ) < 0.8 →
        assign_phase index total = "mitigation") ∧
      ((0.8 : ℚ) ≤ (index : ℚ) / (total : ℚ) → assign_phase index total = "resolution")) ∧
    (∀ i : Fin 10, assign_phase i 10 =
      if i.val ≤ 1 then "detection" else if i.val ≤ 7 then "mitigation" else "resolution") := by
  refine ⟨fun index total h => by simp [assign_phase, h], fun index total h => ?_,
    fun i => by fin_cases i <;> norm_num [assign_phase]⟩
  refine ⟨fun hlt => ?_, fun hmid => ?_, fun hge => ?_⟩
  · simp [assign_phase, h, hlt]
  · simp [assign_phase, h, hmid.2, not_lt.2 hmid.1]
  · have h02 : (0.2 : ℚ) ≤ (index : ℚ) / (total : ℚ) := le_trans (by norm_num) hge
    simp [assign_phase, h, not_lt.2 hge, not_lt.2 h02]

/-- C6 witness: the theorem instantiated at index 3 of 10 total rows. -/
theorem C6_assign_phase_boundaries_witness : assign_phase 3 10 = "mitigation" :=
  (C6_assign_phase_boundaries.2.1 3 10 (by norm_num)).2.1 (by norm_num)

/-- The ids of the actions recommended for a given category value. -/
def actionIdsFor (cat : String) : List String :=
  (_build_recommended_actions ⟨none, some cat⟩).map (fun a => a.id)

/-- The category-specific subset (A1-A4) of the recommended action ids. -/
def categorySpecificIds (cat : String) : List String :=
  (actionIdsFor cat).filter (fun a => ["A1", "A2", "A3", "A4"].contains a)

/-- C9: for each of the six `primary_cause_category` values, the recommended
actions always include A5 and A6, and contain exactly one of A1-A4 matching
the category (A1 dependency, A2 infra, A3 deployment, A4 performance), with
none of those four for `customer-impact` or `unknown`. -/
theorem C9_recommended_actions_catalogue :
    ("A5" ∈ actionIdsFor "performance" ∧ "A6" ∈ actionIdsFor "performance" ∧
      categorySpecificIds "performance" = ["A4"]) ∧
    ("A5" ∈ actionIdsFor "dependency" ∧ "A6" ∈ actionIdsFor "dependency" ∧
      categorySpecificIds "dependency" = ["A1"]) ∧
    ("A5" ∈ actionIdsFor "deployment" ∧ "A6" ∈ actionIdsFor "deployment" ∧
      categorySpecificIds "deployment" = ["A3"]) ∧
    ("A5" ∈ actionIdsFor "infra" ∧ "A6" ∈ actionIdsFor "infra" ∧
      categorySpecificIds "infra" = ["A2"]) ∧
    ("A5" ∈ actionIdsFor "customer-impact" ∧ "A6" ∈ actionIdsFor "customer-impact" ∧
      categorySpecificIds "customer-impact" = []) ∧
    ("A5" ∈ actionIdsFor "unknown" ∧ "A6" ∈ actionIdsFor "unknown" ∧
      categorySpecificIds "unknown" = []) := by
  decide

/-- C4 counterexample: on the empty timeline the forensic agent returns the
empty list, not the `H_generic` fallback hypothesis, because of the early
`if not events: return []` exit. -/
theorem C4_empty_timeline_counterexample :
    generate_root_cause_hypotheses [] = [] ∧
    generate_root_cause_hypotheses [] ≠ [fallbackHypothesis] := by
  decide

/-- C4 (amended): for every non-empty timeline on which all four category
scores are 0, every scored hypothesis is dropped and the forensic agent
returns exactly the `H_generic` fallback with confidence 0.2; the empty
timeline instead returns the empty list. -/
theorem C4_all_zero_scores_fallback (events : List Event) (hne : events ≠ [])
    (hn : networkScore events = 0) (hd : dependencyScore events = 0)
    (hc : capacityScore events = 0) (hb : appBugScore events = 0) :
    generate_root_cause_hypotheses events = [fallbackHypothesis] := by
  unfold generate_root_cause_hypotheses
  rw [if_neg hne]
  simp [hn, hd, hc, hb]

/-- C4 witness: a one-event timeline with no keyword evidence yields the
fallback hypothesis. -/
theorem C4_all_zero_scores_fallback_witness :
    generate_root_cause_hypotheses [⟨"all good", "", "", ""⟩] = [fallbackHypothesis] :=
  C4_all_zero_scores_fallback [⟨"all good", "", "", ""⟩]
    (by decide) (by decide) (by decide) (by decide) (by decide)

/-- C10: `calibrate_hypotheses` is not total over hypothesis lists with
non-numeric score values: `score_normalisation` converts the unparsable
score defensively to 0, but the primary-hypothesis selection applies an
unguarded `float(...)` to the same raw score, so the call raises (`none`)
instead of returning a calibrated result. -/
theorem C10_nonnumeric_score_raises :
    score_normalisation [⟨"H1", "t", .nonNumeric "not-a-number", "e"⟩] = [0] ∧
    calibrate_hypotheses [⟨"H1", "t", .nonNumeric "not-a-number", "e"⟩] [] = none := by
  exact ⟨by decide, rfl⟩

/-- C8: for every timeline and every hypothesis id present in the refined
list, `explain_hypothesis` places each event in exactly one of
`supporting_evidence` or `conflicting_evidence`, and the two lists' lengths
sum to the total event count; for an id not present it returns the
structured error payload "Hypothesis {id} not found.". -/
theorem C8_explain_partition (events : List Event) (refined_hypotheses : List EHyp)
    (hypothesis_id : String) :
    ((∃ h ∈ refined_hypotheses, h.id = hypothesis_id) →
      ∃ i t x sup conf,
        explain_hypothesis events refined_hypotheses hypothesis_id = .ok i t x sup conf ∧
        sup.length + conf.length = events.length ∧
        ∀ e ∈ events, (e ∈ sup ∧ e ∉ conf) ∨ (e ∈ conf ∧ e ∉ sup)) ∧
    ((∀ h ∈ refined_hypotheses, h.id ≠ hypothesis_id) →
      explain_hypothesis events refined_hypotheses hypothesis_id =
        .fail ("Hypothesis " ++ hypothesis_id ++ " not found.")) := by
  constructor
  · rintro ⟨h0, hmem, hid⟩
    cases hfind : refined_hypotheses.find? (fun h => h.id == hypothesis_id) with
    | none =>
      exact absurd (by simp [hid]) (List.find?_eq_none.1 hfind h0 hmem)
    | some sel =>
      refine ⟨sel.id, sel.title, sel.explanation,
        events.filter (eventMatchesKeywords (keywordsOfTitle sel.title)),
        events.filter (not ∘ eventMatchesKeywords (keywordsOfTitle sel.title)), ?_, ?_, ?_⟩
      · simp [explain_hypothesis, hfind]
      · exact (List.length_eq_length_filter_add
          (eventMatchesKeywords (keywordsOfTitle sel.title))).symm
      · intro e he
        by_cases hp : eventMatchesKeywords (keywordsOfTitle sel.title) e
        · exact Or.inl ⟨List.mem_filter.2 ⟨he, hp⟩, by simp [List.mem_filter, hp]⟩
        · refine Or.inr ⟨List.mem_filter.2 ⟨he, by simpa using hp⟩, ?_⟩
          simp [List.mem_filter]
          intro _
          simpa using hp
  · intro hall
    have hfind : refined_hypotheses.find? (fun h => h.id == hypothesis_id) = none :=
      List.find?_eq_none.2 (fun h hm => by simpa using hall h hm)
    simp [explain_hypothesis, hfind]

/-- C8 witness: a two-event timeline and a present hypothesis id. -/
theorem C8_explain_partition_witness :
    ∃ i t x sup conf,
      explain_hypothesis
        [⟨"timeout in network", "", "", ""⟩, ⟨"all good", "", "", ""⟩]
        [⟨"H1", "Network or connectivity issue between services", "expl"⟩] "H1" =
          .ok i t x sup conf ∧
      sup.length + conf.length =
        ([⟨"timeout in network", "", "", ""⟩, ⟨"all good", "", "", ""⟩] : List Event).length ∧
      ∀ e ∈ ([⟨"timeout in network", "", "", ""⟩, ⟨"all good", "", "", ""⟩] : List Event),
        (e ∈ sup ∧ e ∉ conf) ∨ (e ∈ conf ∧ e ∉ sup) :=
  (C8_explain_partition _ _ _).1
    ⟨⟨"H1", "Network or connectivity issue between services", "expl"⟩, by decide, rfl⟩

/-- C3 counterexample: for the singleton input `[1/2]` the softmax output is
`[1.0]`, so not every output value lies strictly inside `(0, 1)`. -/
theorem C3_singleton_counterexample :
    ¬ (∀ y ∈ softmax_confidence_adjustment [(1 : ℚ)/2], 0 < y ∧ y < 1) := by
  intro hall
  have hmem : (1 : ℝ) ∈ softmax_confidence_adjustment [(1 : ℚ)/2] := by
    simp [softmax_confidence_adjustment]
  exact absurd (hall 1 hmem).2 (lt_irrefl 1)

/-- C3 (amended): for every non-empty list of normalised scores the softmax
output sums to exactly 1 and every value lies in the half-open interval
`(0, 1]`; the value 1 is attained for a singleton input, so the open
interval `(0,1)` of the original claim is not available. -/
theorem C3_softmax_sums_to_one (normalised_scores : List ℚ)
    (hne : normalised_scores ≠ []) :
    (softmax_confidence_adjustment normalised_scores).sum = 1 ∧
    ∀ y ∈ softmax_confidence_adjustment normalised_scores, 0 < y ∧ y ≤ 1 := by
  match normalised_scores, hne with
  | s0 :: rest, _ =>
    rw [softmax_confidence_adjustment]
    set m := rest.foldl max s0 with hm
    set exps := (s0 :: rest).map (fun s => Real.exp ((s : ℝ) - (m : ℝ))) with hexps
    have hpos : ∀ e ∈ exps, 0 < e := by
      intro e he
      rw [hexps] at he
      rcases List.mem_map.1 he with ⟨s, _, hs⟩
      exact hs ▸ Real.exp_pos _
    have hnonneg : ∀ e ∈ exps, 0 ≤ e := fun e he => le_of_lt (hpos e he)
    have hexne : exps ≠ [] := by rw [hexps]; simp
    have htot : 0 < exps.sum := List.sum_pos exps hpos hexne
    rw [if_neg (ne_of_gt htot)]
    constructor
    · rw [list_sum_map_div]
      exact div_self (ne_of_gt htot)
    · intro y hy
      rcases List.mem_map.1 hy with ⟨e, he, hey⟩
      subst hey
      exact ⟨div_pos (hpos e he) htot,
        (div_le_one htot).2 (List.single_le_sum hnonneg e he)⟩

/-- C3 witness: the theorem instantiated at the two-element input `[1, 0]`. -/
theorem C3_softmax_sums_to_one_witness :
    (softmax_confidence_adjustment [1, 0]).sum = 1 ∧
    ∀ y ∈ softmax_confidence_adjustment [1, 0], 0 < y ∧ y ≤ 1 :=
  C3_softmax_sums_to_one [1, 0] (by simp)

/-- In the not-all-equal branch, `score_normalisation` is exactly the min-max
transform of the clamped raw scores. -/
theorem score_normalisation_eq_of_ne (h : Hyp) (t : List Hyp)
    (hne : ¬ ((t.map rawScore).foldl max (rawScore h) =
              (t.map rawScore).foldl min (rawScore h))) :
    score_normalisation (h :: t) =
      ((h :: t).map rawScore).map (fun s =>
        (s - (t.map rawScore).foldl min (rawScore h)) /
        ((t.map rawScore).foldl max (rawScore h) -
         (t.map rawScore).foldl min (rawScore h))) := by
  simp only [score_normalisation]
  rw [if_neg hne]

/-- Reading position `i` of a mapped list through `getD`. -/
theorem getD_map_of_lt {f : ℚ → ℚ} {l : List ℚ} {i : ℕ} (hi : i < l.length) :
    (l.map f).getD i 0 = f (l.getD i 0) := by
  rw [List.getD_eq_getElem _ _ (by simpa using hi), List.getD_eq_getElem _ _ hi,
    List.getElem_map]

/-- C7: for every non-empty hypothesis list whose scores are all numeric and
lie in `[0,1]` and are not all equal, `score_normalisation` produces values in
`[0,1]` that preserve the strict relative ordering of the inputs, map every
maximal input score to 1.0 and every minimal input score to 0.0. -/
theorem C7_normalisation_round_trip (hs : List Hyp) (vs : List ℚ)
    (hvs : hs.map (fun h => pyFloat h.score) = vs.map some)
    (hb : ∀ v ∈ vs, 0 ≤ v ∧ v ≤ 1)
    (hneq : ∃ a ∈ vs, ∃ b ∈ vs, a ≠ b) :
    (∀ y ∈ score_normalisation hs, 0 ≤ y ∧ y ≤ 1) ∧
    (∀ i j : ℕ, i < vs.length → j < vs.length → vs.getD i 0 < vs.getD j 0 →
      (score_normalisation hs).getD i 0 < (score_normalisation hs).getD j 0) ∧
    (∀ i : ℕ, i < vs.length → (∀ v ∈ vs, v ≤ vs.getD i 0) →
      (score_normalisation hs).getD i 0 = 1) ∧
    (∀ i : ℕ, i < vs.length → (∀ v ∈ vs, vs.getD i 0 ≤ v) →
      (score_normalisation hs).getD i 0 = 0) := by
  have hmapraw : hs.map rawScore = vs := by
    have h1 : hs.map rawScore =
        (hs.map (fun h => pyFloat h.score)).map (fun o => clamp01 (o.getD 0)) := by
      rw [List.map_map]; rfl
    rw [h1, hvs, List.map_map]
    have h2 : ∀ v ∈ vs, ((fun o : Option ℚ => clamp01 (o.getD 0)) ∘ some) v = id v := by
      intro v hv
      rcases hb v hv with ⟨h0, h1'⟩
      simp [Function.comp, clamp01, min_eq_right h1', max_eq_right h0]
    rw [List.map_congr_left h2, List.map_id]
  match hs, hvs, hneq, hb, hmapraw with
  | [], hvs, hneq, _, _ =>
    exfalso
    rcases hneq with ⟨a, ha, _⟩
    cases vs with
    | nil => simp at ha
    | cons b u => simp at hvs
  | h :: t, _, hneq, hb, hmapraw =>
    have hvs0 : vs = rawScore h :: t.map rawScore := by rw [← hmapraw]; rfl
    subst hvs0
    have hself : ∀ x ∈ rawScore h :: t.map rawScore,
        (t.map rawScore).foldl min (rawScore h) ≤ x ∧
        x ≤ (t.map rawScore).foldl max (rawScore h) := fun x hx =>
      ⟨foldl_min_le (t.map rawScore) (rawScore h) x hx,
       le_foldl_max (t.map rawScore) (rawScore h) x hx⟩
    have hlt : (t.map rawScore).foldl min (rawScore h) <
        (t.map rawScore).foldl max (rawScore h) := by
      rcases hneq with ⟨a, ha, b, hbmem, hab⟩
      by_contra hcon
      push_neg at hcon
      have hall : ∀ x ∈ rawScore h :: t.map rawScore,
          x = (t.map rawScore).foldl min (rawScore h) := fun x hx =>
        le_antisymm ((hself x hx).2.trans hcon) (hself x hx).1
      exact hab ((hall a ha).trans (hall b hbmem).symm)
    have hMm : ¬ ((t.map rawScore).foldl max (rawScore h) =
        (t.map rawScore).foldl min (rawScore h)) := hlt.ne'
    have hden : 0 < (t.map rawScore).foldl max (rawScore h) -
        (t.map rawScore).foldl min (rawScore h) := sub_pos.2 hlt
    rw [score_normalisation_eq_of_ne h t hMm]
    have hlen : ((h :: t).map rawScore) = rawScore h :: t.map rawScore := rfl
    rw [hlen]
    refine ⟨?_, ?_, ?_, ?_⟩
    · intro y hy
      rcases List.mem_map.1 hy with ⟨s, hsmem, hsy⟩
      subst hsy
      rcases hself s hsmem with ⟨hsl, hsu⟩
      exact ⟨div_nonneg (sub_nonneg.2 hsl) (le_of_lt hden),
        (div_le_one hden).2 (sub_le_sub_right hsu _)⟩
    · intro i j hi hj hij
      rw [getD_map_of_lt hi, getD_map_of_lt hj]
      exact (div_lt_div_iff_of_pos_right hden).2 (sub_lt_sub_right hij _)
    · intro i hi hmax
      rw [getD_map_of_lt hi]
      have hmem : (rawScore h :: t.map rawScore).getD i 0 ∈
          rawScore h :: t.map rawScore := by
        rw [List.getD_eq_getElem _ _ hi]
        exact List.getElem_mem hi
      have hMle : (t.map rawScore).foldl max (rawScore h) ≤
          (rawScore h :: t.map rawScore).getD i 0 :=
        hmax _ (foldl_max_mem (t.map rawScore) (rawScore h))
      have heq : (rawScore h :: t.map rawScore).getD i 0 =
          (t.map rawScore).foldl max (rawScore h) :=
        le_antisymm (hself _ hmem).2 hMle
      rw [heq, div_self (ne_of_gt hden)]
    · intro i hi hmin
      rw [getD_map_of_lt hi]
      have hmem : (rawScore h :: t.map rawScore).getD i 0 ∈
          rawScore h :: t.map rawScore := by
        rw [List.getD_eq_getElem _ _ hi]
        exact List.getElem_mem hi
      have hmle : (rawScore h :: t.map rawScore).getD i 0 ≤
          (t.map rawScore).foldl min (rawScore h) :=
        hmin _ (foldl_min_mem (t.map rawScore) (rawScore h))
      have heq : (rawScore h :: t.map rawScore).getD i 0 =
          (t.map rawScore).foldl min (rawScore h) :=
        le_antisymm hmle (hself _ hmem).1
      rw [heq, sub_self, zero_div]

/-- C7 witness: the theorem instantiated at scores `[0.9, 0.85]`, whose
normalisation is `[1, 0]`. -/
theorem C7_normalisation_round_trip_witness :
    (∀ y ∈ score_normalisation
        [⟨"H1", "", .num (9/10), ""⟩, ⟨"H2", "", .num (17/20), ""⟩], 0 ≤ y ∧ y ≤ 1) ∧
    (∀ i j : ℕ, i < ([9/10, 17/20] : List ℚ).length → j < ([9/10, 17/20] : List ℚ).length →
      ([9/10, 17/20] : List ℚ).getD i 0 < ([9/10, 17/20] : List ℚ).getD j 0 →
      (score_normalisation
        [⟨"H1", "", .num (9/10), ""⟩, ⟨"H2", "", .num (17/20), ""⟩]).getD i 0 <
      (score_normalisation
        [⟨"H1", "", .num (9/10), ""⟩, ⟨"H2", "", .num (17/20), ""⟩]).getD j 0) ∧
    (∀ i : ℕ, i < ([9/10, 17/20] : List ℚ).length →
      (∀ v ∈ ([9/10, 17/20] : List ℚ), v ≤ ([9/10, 17/20] : List ℚ).getD i 0) →
      (score_normalisation
        [⟨"H1", "", .num (9/10), ""⟩, ⟨"H2", "", .num (17/20), ""⟩]).getD i 0 = 1) ∧
    (∀ i : ℕ, i < ([9/10, 17/20] : List ℚ).length →
      (∀ v ∈ ([9/10, 17/20] : List ℚ), ([9/10, 17/20] : List ℚ).getD i 0 ≤ v) →
      (score_normalisation
        [⟨"H1", "", .num (9/10), ""⟩, ⟨"H2", "", .num (17/20), ""⟩]).getD i 0 = 0) :=
  C7_normalisation_round_trip
    [⟨"H1", "", .num (9/10), ""⟩, ⟨"H2", "", .num (17/20), ""⟩]
    [9/10, 17/20] rfl (by norm_num) ⟨9/10, by norm_num, 17/20, by norm_num, by norm_num⟩

/-- The sequential `H2`/`H1`/`H4`/`H5` construction equals a filter of the
fixed four-element priority list by presence among the refined ids. -/
theorem presentFour_eq_filter (refined_hypotheses : List GHyp) :
    presentFour refined_hypotheses =
      ([some "H2", some "H1", some "H4", some "H5"] : List (Option String)).filter
        (fun i => i ∈ refined_hypotheses.map (fun h => h.id)) := by
  by_cases m2 : some "H2" ∈ refined_hypotheses.map (fun h => h.id) <;>
    by_cases m1 : some "H1" ∈ refined_hypotheses.map (fun h => h.id) <;>
      by_cases m4 : some "H4" ∈ refined_hypotheses.map (fun h => h.id) <;>
        by_cases m5 : some "H5" ∈ refined_hypotheses.map (fun h => h.id) <;>
          simp only [List.mem_map] at m2 m1 m4 m5 <;>
            simp [presentFour, List.filter_cons, m2, m1, m4, m5]

/-- For a non-empty primary id string, the code's chain order matches the
claim's fixed-order rule. -/
theorem codeChainOrder_eq_spec (refined_hypotheses : List GHyp) (pid : String)
    (hpne : pid ≠ "") :
    codeChainOrder refined_hypotheses (some pid) =
      specCascadeOrder refined_hypotheses pid := by
  unfold codeChainOrder specCascadeOrder
  rw [presentFour_eq_filter]
  by_cases hmem : some pid ∈
      ([some "H2", some "H1", some "H4", some "H5"] : List (Option String)).filter
        (fun i => i ∈ refined_hypotheses.map (fun h => h.id))
  · rw [if_neg (fun hcon => hcon.2 hmem), if_pos hmem]
  · rw [if_pos ⟨by simp [pyTruthyStrOpt, hpne], hmem⟩, if_neg hmem]

/-- The default cascade entry (never actually read by `getD` in the claims
below, which only look at in-range indices). -/
def dummyNode : CascadeNode :=
  { node := none, hypothesis_id := none, caused_by := none, score := 0 }

/-- The concrete refined-hypothesis list of the claim's concrete case. -/
def c5Hyps : List GHyp :=
  [ { id := some "H1", title := some "t1", score := some 1 }
  , { id := some "H2", title := some "t2", score := some 1 }
  , { id := some "H4", title := some "t4", score := some 1 }
  , { id := some "H5", title := some "t5", score := some 1 } ]

/-- C5 counterexample: with a single refined hypothesis whose id is the empty
string and an incident summary whose primary cause id is that same empty
string (which does occur in the list), the primary is found — yet the code's
Python-truthiness guard `if primary_id and ...` skips prepending it, so the
cascade is empty rather than containing the primary id as the claim's rule
demands. -/
theorem C5_empty_id_counterexample :
    (_build_deterministic_chain
        [{ id := some "", title := some "T", score := some 1 }]
        { primary_cause_id := some "", primary_cause_category := none }).root_cause_id
      = some "" ∧
    (_build_deterministic_chain
        [{ id := some "", title := some "T", score := some 1 }]
        { primary_cause_id := some "", primary_cause_category := none }).cascade = [] ∧
    ¬ ((_build_deterministic_chain
        [{ id := some "", title := some "T", score := some 1 }]
        { primary_cause_id := some "", primary_cause_category := none }).cascade.map
          (fun c => c.hypothesis_id)
        = specCascadeOrder [{ id := some "", title := some "T", score := some 1 }] "") := by
  refine ⟨rfl, rfl, ?_⟩
  decide

/-- C5 (amended): for every refined list and summary whose primary cause id is
a non-empty string occurring in the list, the cascade order is exactly `H2`
(if present), then `H1`, `H4`, `H5` (each if present), with the primary id
inserted at the front when not among those four (an empty-string primary id
is never prepended, by the code's truthiness guard); `caused_by` chains each
entry to the previous one and is absent for the first; the concrete case
`H1,H2,H4,H5` with primary `H5` yields exactly `[H2, H1, H4, H5]`; and when
the primary id is not found the graph is empty. -/
theorem C5_causal_cascade_fixed_order :
    (∀ (refined_hypotheses : List GHyp) (incident_summary : IncidentSummary) (pid : String),
      incident_summary.primary_cause_id = some pid → pid ≠ "" →
      (∃ h ∈ refined_hypotheses, h.id = some pid) →
      ((_build_deterministic_chain refined_hypotheses incident_summary).cascade.map
          (fun c => c.hypothesis_id) = specCascadeOrder refined_hypotheses pid) ∧
      (0 < (_build_deterministic_chain refined_hypotheses incident_summary).cascade.length →
        ((_build_deterministic_chain refined_hypotheses incident_summary).cascade.getD 0
            dummyNode).caused_by = none) ∧
      (∀ idx : ℕ,
        idx + 1 < (_build_deterministic_chain refined_hypotheses incident_summary).cascade.length →
        ((_build_deterministic_chain refined_hypotheses incident_summary).cascade.getD (idx + 1)
            dummyNode).caused_by =
        ((_build_deterministic_chain refined_hypotheses incident_summary).cascade.getD idx
            dummyNode).hypothesis_id)) ∧
    ((_build_deterministic_chain c5Hyps
        { primary_cause_id := some "H5", primary_cause_category := none }).cascade.map
          (fun c => (c.hypothesis_id, c.caused_by)) =
      [(some "H2", none), (some "H1", some "H2"), (some "H4", some "H1"),
       (some "H5", some "H4")]) ∧
    (∀ (refined_hypotheses : List GHyp) (incident_summary : IncidentSummary),
      (∀ h ∈ refined_hypotheses, h.id ≠ incident_summary.primary_cause_id) →
      _build_deterministic_chain refined_hypotheses incident_summary =
        { root_cause := none, root_cause_id := none, cascade := [] }) := by
  refine ⟨?_, by decide, ?_⟩
  · intro refined_hypotheses incident_summary pid hpid hpne hex
    have hfound : ∃ primary, byId refined_hypotheses (some pid) = some primary := by
      rcases hex with ⟨h0, hmem, hid⟩
      cases hcase : byId refined_hypotheses (some pid) with
      | some p => exact ⟨p, rfl⟩
      | none =>
        exact absurd (by simp [hid])
          (List.find?_eq_none.1 hcase h0 (List.mem_reverse.2 hmem))
    rcases hfound with ⟨primary, hprimary⟩
    have hchain : _build_deterministic_chain refined_hypotheses incident_summary =
        { root_cause := primary.title
          root_cause_id := some pid
          cascade := (List.range (codeChainOrder refined_hypotheses (some pid)).length).map
            (cascadeNodeAt refined_hypotheses (codeChainOrder refined_hypotheses (some pid))) } := by
      simp [_build_deterministic_chain, hpid, hprimary]
    rw [hchain]
    have hget : ∀ idx : ℕ, idx < (codeChainOrder refined_hypotheses (some pid)).length →
        (((List.range (codeChainOrder refined_hypotheses (some pid)).length).map
            (cascadeNodeAt refined_hypotheses (codeChainOrder refined_hypotheses (some pid)))).getD
              idx dummyNode) =
          cascadeNodeAt refined_hypotheses (codeChainOrder refined_hypotheses (some pid)) idx := by
      intro idx hidx
      rw [List.getD_eq_getElem _ _ (by simpa using hidx), List.getElem_map, List.getElem_range]
    refine ⟨?_, ?_, ?_⟩
    · show ((List.range (codeChainOrder refined_hypotheses (some pid)).length).map
          (cascadeNodeAt refined_hypotheses (codeChainOrder refined_hypotheses (some pid)))).map
            (fun c => c.hypothesis_id) = _
      rw [List.map_map]
      have hproj : ((fun c : CascadeNode => c.hypothesis_id) ∘
          cascadeNodeAt refined_hypotheses (codeChainOrder refined_hypotheses (some pid))) =
          (fun idx => (codeChainOrder refined_hypotheses (some pid)).getD idx none) := rfl
      rw [hproj, map_getD_range, codeChainOrder_eq_spec refined_hypotheses pid hpne]
    · intro hlen
      simp only [List.length_map, List.length_range] at hlen
      rw [hget 0 hlen]
      simp [cascadeNodeAt]
    · intro idx hidx
      simp only [List.length_map, List.length_range] at hidx
      rw [hget (idx + 1) hidx, hget idx (Nat.lt_of_succ_lt hidx)]
      simp [cascadeNodeAt]
  · intro refined_hypotheses incident_summary hnone
    have hbyid : byId refined_hypotheses incident_summary.primary_cause_id = none := by
      apply List.find?_eq_none.2
      intro h hm
      simpa using hnone h (List.mem_reverse.1 hm)
    simp [_build_deterministic_chain, hbyid]

/-- C5 witness: the general part of the theorem instantiated at the concrete
four-hypothesis list with primary cause `H5`. -/
theorem C5_causal_cascade_fixed_order_witness :
    (_build_deterministic_chain c5Hyps
        { primary_cause_id := some "H5", primary_cause_category := none }).cascade.map
      (fun c => c.hypothesis_id) = specCascadeOrder c5Hyps "H5" :=
  (C5_causal_cascade_fixed_order.1 c5Hyps
    { primary_cause_id := some "H5", primary_cause_category := none } "H5"
    rfl (by decide) ⟨{ id := some "H5", title := some "t5", score := some 1 }, by decide, rfl⟩).1

/-- The concrete counterexample text: a well-formed JSON object followed by
prose that contains a later closing brace. -/
def c2Text : String := "\x7b\"a\": 1\x7d and also \x7b\"b\": 2\x7d"

/-- C2 counterexample: `c2Text` contains the well-formed JSON object
`{"a": 1}` (it is even a prefix), yet `_extract_json` raises (`none`),
because the greedy regex candidate runs from the first brace to the *last*
brace and that candidate is not valid JSON.  So the extraction does not
return the first well-formed JSON object found in the text. -/
theorem C2_greedy_extraction_counterexample :
    (∃ post, c2Text = "\x7b\"a\": 1\x7d" ++ post) ∧
    json_loads "\x7b\"a\": 1\x7d" = some (JVal.obj [("a", JVal.num 1)]) ∧
    _extract_json c2Text = none :=
  ⟨⟨" and also \x7b\"b\": 2\x7d", rfl⟩, rfl, rfl⟩

/-- C2 (amended): the extraction applies `json.loads` to the substring from
the first `{` to the last `}` of the text, so it can fail even when the text
contains a well-formed JSON object; whenever the call failed, the extraction
fails, or the extracted `refined` value is not a list,
`refine_root_cause_with_gemini` returns the original rule-based hypotheses
together with a diagnostic commentary, and in every case it returns either
the original hypotheses or the parsed `refined` list — it never raises. -/
theorem C2_refine_always_falls_back (rule_based_hypotheses : List JVal)
    (configured : Bool) (callResult : Except String String) :
    ((∀ t, callResult = .ok t → _extract_json (pyStrip t) = none) →
      ∃ c, refine_root_cause_with_gemini rule_based_hypotheses configured callResult =
        (rule_based_hypotheses, c)) ∧
    ((refine_root_cause_with_gemini rule_based_hypotheses configured callResult).1 =
        rule_based_hypotheses ∨
      ∃ t extracted xs, callResult = .ok t ∧ _extract_json (pyStrip t) = some extracted ∧
        jget extracted "refined" = some (.arr xs) ∧
        (refine_root_cause_with_gemini rule_based_hypotheses configured callResult).1 = xs) := by
  unfold refine_root_cause_with_gemini
  by_cases hempty : rule_based_hypotheses.isEmpty
  · simp [hempty]
  · by_cases hcfg : configured
    · cases callResult with
      | error e => simp [hempty, hcfg]
      | ok t =>
        cases hext : _extract_json (pyStrip t) with
        | none => simp [hempty, hcfg, hext]
        | some extracted =>
          cases hg : jget extracted "refined" with
          | none =>
            constructor
            · intro hfail
              exact absurd hext (by simp [hfail t rfl])
            · left
              simp [hempty, hcfg, hext, hg]
          | some refined =>
            constructor
            · intro hfail
              exact absurd hext (by simp [hfail t rfl])
            · cases refined with
              | arr xs =>
                right
                exact ⟨t, extracted, xs, rfl, hext, hg, by simp [hempty, hcfg, hext, hg]⟩
              | null => left; simp [hempty, hcfg, hext, hg]
              | bool b => left; simp [hempty, hcfg, hext, hg]
              | num q => left; simp [hempty, hcfg, hext, hg]
              | str s => left; simp [hempty, hcfg, hext, hg]
              | obj fields => left; simp [hempty, hcfg, hext, hg]
    · simp [hempty, hcfg]

/-- C2 witness: a configured call whose response contains no JSON object
falls back to the original hypothesis list. -/
theorem C2_refine_always_falls_back_witness :
    ∃ c, refine_root_cause_with_gemini [JVal.obj [("id", JVal.str "H1")]] true
        (.ok "no json here") = ([JVal.obj [("id", JVal.str "H1")]], c) :=
  (C2_refine_always_falls_back [JVal.obj [("id", JVal.str "H1")]] true
      (.ok "no json here")).1
    (fun t ht => by cases ht; rfl)

/-- The concrete inputs of the calibration end-to-end claim: hypotheses
`[{id: H1, score: 0.9}, {id: H2, score: 0.85}]` and a 3-event timeline. -/
def c1Hyps : List Hyp :=
  [⟨"H1", "", .num (9/10), ""⟩, ⟨"H2", "", .num (17/20), ""⟩]

/-- A 3-event timeline (only its length matters to calibration). -/
def c1Events : List Event :=
  [⟨"e1", "", "", ""⟩, ⟨"e2", "", "", ""⟩, ⟨"e3", "", "", ""⟩]

/-- C1: on the concrete inputs, calibration uses timeline-length penalty
factor 0.7 and multi-hypothesis penalty factor 0.9, the final calibrated
primary confidence equals the softmax of the min-max-normalised scores
evaluated at H1 (position 0) multiplied by 0.7 and 0.9, and the evidence
report's `multiple_high_hypotheses` equals 2. -/
theorem C1_calibration_end_to_end :
    ∃ cal rep,
      calibrate_hypotheses c1Hyps c1Events =
        some (cal,
          ((softmax_confidence_adjustment (score_normalisation c1Hyps)).getD 0 0) *
            ((7 : ℝ)/10) * ((9 : ℝ)/10),
          rep) ∧
      rep.multiple_high_hypotheses = 2 ∧
      rep.timeline_length_penalty_factor = 7/10 ∧
      rep.multiple_high_penalty_factor = 9/10 := by
  have hmapM : c1Hyps.mapM (fun h => pyFloat h.score) = some [9/10, 17/20] := rfl
  have hargmax : argmaxIdx [9/10, 17/20] = 0 := by
    have h2 : ¬ ((9:ℚ)/10 < 17/20) := by norm_num
    simp [argmaxIdx, List.foldl, h2]
  have hcount : ([9/10, 17/20] : List ℚ).countP (fun s => 8/10 ≤ s) = 2 := by
    norm_num [List.countP_cons, List.countP_nil]
  have hq7 : qRound 2 (7/10) = 7/10 := by norm_num [qRound]
  have hq9 : qRound 2 (9/10) = 9/10 := by norm_num [qRound]
  have hpen : confidence_penalty c1Hyps c1Events (9/10)
      ((softmax_confidence_adjustment (score_normalisation c1Hyps)).getD 0 0) =
      some (((softmax_confidence_adjustment (score_normalisation c1Hyps)).getD 0 0) *
              ((7 : ℝ)/10) * ((9 : ℝ)/10),
        { timeline_length := 3
          raw_primary_confidence := qRound 2 (9/10)
          softmax_primary_confidence :=
            rRound 2 ((softmax_confidence_adjustment (score_normalisation c1Hyps)).getD 0 0)
          timeline_length_penalty_factor := qRound 2 (7/10)
          multiple_high_hypotheses := 2
          multiple_high_penalty_factor := qRound 2 (9/10)
          final_primary_confidence :=
            rRound 2 (((softmax_confidence_adjustment (score_normalisation c1Hyps)).getD 0 0) *
              ((7 : ℝ)/10) * ((9 : ℝ)/10)) }) := by
    simp only [confidence_penalty, hmapM, hcount, Option.some_bind]
    norm_num [c1Events]
  refine ⟨(c1Hyps.zip ((score_normalisation c1Hyps).zip
      (softmax_confidence_adjustment (score_normalisation c1Hyps)))).map
        (fun hnp => { base := hnp.1
                      normalised_score := qRound 3 hnp.2.1
                      calibrated_score := rRound 3 hnp.2.2 }),
    { timeline_length := 3
      raw_primary_confidence := qRound 2 (9/10)
      softmax_primary_confidence :=
        rRound 2 ((softmax_confidence_adjustment (score_normalisation c1Hyps)).getD 0 0)
      timeline_length_penalty_factor := qRound 2 (7/10)
      multiple_high_hypotheses := 2
      multiple_high_penalty_factor := qRound 2 (9/10)
      final_primary_confidence :=
        rRound 2 (((softmax_confidence_adjustment (score_normalisation c1Hyps)).getD 0 0) *
          ((7 : ℝ)/10) * ((9 : ℝ)/10)) }, ?_, rfl, hq7, hq9⟩
  simp only [calibrate_hypotheses]
  rw [if_neg (by simp [c1Hyps])]
  simp only [hmapM, Option.bind_eq_bind, Option.some_bind, hargmax, List.getD_cons_zero]
  rw [hpen]
  simp only [Option.bind_eq_bind, Option.some_bind, Option.pure_def]
